import Mathlib

/-!
Verification of the RCA (root-cause-analysis) failure-aggregation engine of the
Talkops repository: the in-memory failure-event store (`src/lib/failureStore.ts`),
the aggregation functions, the report builder (`rcaEngine.ts`) and the on-demand
report API handler.

The TypeScript source is shallowly embedded: the module-level mutable array
`failureEvents` becomes an explicit `List FailureEvent` threaded through the
operations; `Date` timestamps become epoch milliseconds (`Int`); JavaScript
numbers that can be `NaN` become `Option Int` (`none` = NaN); the Gemini
Summarizer becomes an oracle `String → Except String (Option String)`
(`.error` = thrown/timeout, `.ok none` = missing `response.text`,
`.ok (some t)` = returned text).  `Math.round ((n / total) * 100)` is modelled
as exact round-half-up on rationals, `(200*n + total) / (2*total)` in `Nat`
arithmetic; JavaScript evaluates the quotient in binary floating point, which
can disagree with the exact value only on ties hit inexactly.
`Array.prototype.sort` (stable since ES2019) with comparator
`(a, b) => b.count - a.count` is modelled by `List.insertionSort`, which is
stable.  JavaScript objects used as dictionaries (`Record<string, …>`) are
modelled as insertion-ordered association lists: `Object.entries` preserves
insertion order for the non-array-index string keys used here (failure types,
agent names, gateway names, "unknown", composite pattern keys).
-/

namespace Talkops

/-- `FailureType` from `failureStore.ts`:
`export type FailureType = 'payment' | 'fraud' | 'shipping'`. -/
inductive FailureType where
  | payment
  | fraud
  | shipping
deriving DecidableEq, Repr

/-- The string value of a `FailureType` tag (the TS union member itself). -/
def FailureType.str : FailureType → String
  | .payment => "payment"
  | .fraud => "fraud"
  | .shipping => "shipping"

/-- `FailureEvent` from `failureStore.ts`.  `timestamp` is epoch milliseconds;
optional TS fields are `Option`; `metadata` (an open `Record<string, any>`
bag, never inspected by the engine) is modelled as an optional key/value list. -/
structure FailureEvent where
  id : String
  failure_type : FailureType
  agent_name : String
  gateway : Option String
  timestamp : Int
  request_id : String
  correlation_id : Option String
  error_message : Option String
  metadata : Option (List (String × String))
deriving DecidableEq, Repr

/-- `AggregatedFailure` from `failureStore.ts`. -/
structure AggregatedFailure where
  key : String
  count : Nat
  percentage : Nat
  first_occurrence : Int
  last_occurrence : Int
deriving DecidableEq, Repr

/-- `TimeWindowStats` from `failureStore.ts`. -/
structure TimeWindowStats where
  hour : Nat
  count : Nat
  percentage : Nat
deriving DecidableEq, Repr

/-- `MAX_EVENTS = 10000` from `failureStore.ts`. -/
def MAX_EVENTS : Nat := 10000

/-- `addFailureEvent` from `failureStore.ts`, with the module-level store made
explicit.  The generated `id` (built in the source from `Date.now()` and
`Math.random()`, i.e. from the environment) is part of the caller-supplied
`FailureEvent` here.  `failureEvents.push(fullEvent)` appends at the tail; if
the length then exceeds `MAX_EVENTS`, `failureEvents.shift()` removes the
head (the oldest event). -/
def addFailureEvent (store : List FailureEvent) (event : FailureEvent) :
    List FailureEvent :=
  if MAX_EVENTS < (store ++ [event]).length then (store ++ [event]).drop 1
  else store ++ [event]

/-- The store contents after recording a sequence of events into an initially
empty store. -/
def recordAll (events : List FailureEvent) : List FailureEvent :=
  events.foldl addFailureEvent []

lemma addFailureEvent_foldl (tail : List FailureEvent) :
    ∀ init : List FailureEvent, init.length ≤ MAX_EVENTS →
      tail.foldl addFailureEvent init =
        (init ++ tail).drop (init.length + tail.length - MAX_EVENTS) := by
  induction tail with
  | nil =>
      intro init h
      simp [Nat.sub_eq_zero_of_le, h]
  | cons e t ih =>
      intro init h
      rcases Nat.lt_or_ge init.length MAX_EVENTS with hlt | hge
      · have hcond : ¬ MAX_EVENTS < (init ++ [e]).length := by
          simp only [List.length_append, List.length_cons, List.length_nil]
          omega
        have hstep : addFailureEvent init e = init ++ [e] := by
          rw [addFailureEvent, if_neg hcond]
        have hlen : (init ++ [e]).length ≤ MAX_EVENTS := by
          simp only [List.length_append, List.length_cons, List.length_nil]
          omega
        calc (e :: t).foldl addFailureEvent init
            = t.foldl addFailureEvent (init ++ [e]) := by rw [List.foldl_cons, hstep]
          _ = ((init ++ [e]) ++ t).drop ((init ++ [e]).length + t.length - MAX_EVENTS) :=
              ih (init ++ [e]) hlen
          _ = (init ++ e :: t).drop (init.length + (e :: t).length - MAX_EVENTS) := by
              have h3 : (init ++ [e]).length + t.length - MAX_EVENTS
                  = init.length + (e :: t).length - MAX_EVENTS := by
                simp only [List.length_append, List.length_cons, List.length_nil, List.length_cons]
                omega
              rw [List.append_assoc, List.singleton_append, h3]
      · have heq : init.length = MAX_EVENTS := Nat.le_antisymm h hge
        have hcond : MAX_EVENTS < (init ++ [e]).length := by
          simp only [List.length_append, List.length_cons, List.length_nil]
          omega
        have hstep : addFailureEvent init e = (init ++ [e]).drop 1 := by
          rw [addFailureEvent, if_pos hcond]
        have hlen : ((init ++ [e]).drop 1).length ≤ MAX_EVENTS := by
          simp only [List.length_drop, List.length_append, List.length_cons, List.length_nil]
          omega
        calc (e :: t).foldl addFailureEvent init
            = t.foldl addFailureEvent ((init ++ [e]).drop 1) := by
              rw [List.foldl_cons, hstep]
          _ = (((init ++ [e]).drop 1) ++ t).drop
                (((init ++ [e]).drop 1).length + t.length - MAX_EVENTS) :=
              ih _ hlen
          _ = (init ++ e :: t).drop (init.length + (e :: t).length - MAX_EVENTS) := by
              have h1 : (1 : Nat) ≤ (init ++ [e]).length := by
                simp only [List.length_append, List.length_cons, List.length_nil]
                omega
              have hidx : ((init ++ [e]).drop 1).length + t.length - MAX_EVENTS
                  = t.length := by
                simp only [List.length_drop, List.length_append, List.length_cons, List.length_nil]
                omega
              have hidx2 : init.length + (e :: t).length - MAX_EVENTS
                  = 1 + t.length := by
                simp only [List.length_cons]
                omega
              have h2 : init ++ e :: t = (init ++ [e]) ++ t := by
                simp
              rw [hidx, hidx2, h2, ← List.drop_append_of_le_length h1, List.drop_drop]

/-- C1: for every sequence of `addFailureEvent` calls starting from the empty
store, the store holds exactly the `MAX_EVENTS` (10,000) most recently
recorded events in insertion order — each overflow evicts precisely the single
oldest entry (strict FIFO) — and in particular never holds more than
`MAX_EVENTS` events. -/
theorem recordAll_fifo_bound (events : List FailureEvent) :
    recordAll events = events.drop (events.length - MAX_EVENTS) ∧
      (recordAll events).length = min events.length MAX_EVENTS := by
  have h := addFailureEvent_foldl events [] (by simp [MAX_EVENTS])
  simp only [List.nil_append, List.length_nil, Nat.zero_add] at h
  have h1 : recordAll events = events.drop (events.length - MAX_EVENTS) := h
  refine ⟨h1, ?_⟩
  rw [h1, List.length_drop, Nat.min_def]
  split <;> omega

/-!  C6: runtime behaviour of `record` on malformed input.

`addFailureEvent` is typed in TypeScript, so a well-typed caller cannot omit
the required fields; but the function body performs **no runtime validation**
whatsoever.  To state the claim about inputs with absent required fields we
embed the JavaScript runtime view of the function, in which every property of
the argument object may be `undefined`.  The spec's `InvalidInput` error kind
is the (never-used) error channel of an `Except`. -/

/-- The argument object of `addFailureEvent` as JavaScript sees it: any
property, including the required `failure_type`, `agent_name`, `timestamp`
and `request_id`, may be absent (`none` = `undefined`). -/
structure RawFailureEventInput where
  failure_type : Option FailureType
  agent_name : Option String
  gateway : Option String
  timestamp : Option Int
  request_id : Option String
  correlation_id : Option String
  error_message : Option String
deriving DecidableEq, Repr

/-- The spec's error taxonomy entry for `record` (`InvalidInput`): present in
the model only so that rejection is expressible; the source has no code path
producing it. -/
inductive RecordError where
  | invalidInput
deriving DecidableEq, Repr

/-- `addFailureEvent` under JavaScript runtime semantics: spread the input,
push, trim — no field check, no throw.  The result is therefore always
`Except.ok`. -/
def addFailureEventRaw (store : List RawFailureEventInput)
    (event : RawFailureEventInput) :
    Except RecordError (List RawFailureEventInput) :=
  if MAX_EVENTS < (store ++ [event]).length then
    Except.ok ((store ++ [event]).drop 1)
  else Except.ok (store ++ [event])

/-- An input object with every required field absent (`undefined`). -/
def allFieldsMissingInput : RawFailureEventInput :=
  ⟨none, none, none, none, none, none, none⟩

/-- C6 counterexample: an input with **all** required fields absent is accepted
without any error — `addFailureEvent` does not reject it with `InvalidInput`,
it silently stores it. -/
theorem addFailureEventRaw_accepts_missing_fields :
    addFailureEventRaw [] allFieldsMissingInput =
      Except.ok [allFieldsMissingInput] := by
  rfl

/-- C6 (amended): `record` always succeeds — for every store state and every
input, including inputs whose required fields are absent at runtime, it
returns `ok` and the input ends up as the newest stored event; there is no
runtime `InvalidInput` rejection (missing required fields are prevented only
by the static type system). -/
theorem addFailureEventRaw_always_ok (store : List RawFailureEventInput)
    (event : RawFailureEventInput) :
    ∃ store', addFailureEventRaw store event = Except.ok store' ∧
      store'.getLast? = some event := by
  by_cases h : MAX_EVENTS < (store ++ [event]).length
  · refine ⟨(store ++ [event]).drop 1, by rw [addFailureEventRaw, if_pos h], ?_⟩
    have hs : (1 : Nat) ≤ store.length := by
      simp only [List.length_append, List.length_cons, List.length_nil] at h
      have : 0 < MAX_EVENTS := by simp [MAX_EVENTS]
      omega
    rw [List.drop_append_of_le_length hs, List.getLast?_concat]
  · exact ⟨store ++ [event], by rw [addFailureEventRaw, if_neg h],
      List.getLast?_concat _⟩


/-!  Aggregation (`aggregateBy` and friends from `failureStore.ts`). -/

/-- Exact model of `Math.round((count / total) * 100)` for natural inputs:
round-half-up of the rational `100 * count / total`, i.e.
`⌊(200*count + total) / (2*total)⌋`.  (JavaScript's `Math.round` rounds
half-integers toward `+∞`, which on non-negative values is round-half-up;
the JS quotient is computed in binary floating point, which can differ from
the exact rational only on ties that are hit inexactly.) -/
def jsRoundPct (count total : Nat) : Nat :=
  (200 * count + total) / (2 * total)

/-- `Math.min(...xs)` over a (always non-empty at call sites) list. -/
def minList : List Int → Int
  | [] => 0
  | x :: xs => xs.foldl min x

/-- `Math.max(...xs)` over a (always non-empty at call sites) list. -/
def maxList : List Int → Int
  | [] => 0
  | x :: xs => xs.foldl max x

/-- The grouping dimension argument of `aggregateBy`:
`field: 'failure_type' | 'agent_name' | 'gateway'`. -/
inductive Dimension where
  | failure_type
  | agent_name
  | gateway
deriving DecidableEq, Repr

/-- `const key = event[field] || 'unknown'`: the grouping key of an event for
a dimension, with JavaScript falsy coercion — an absent (`undefined`) field
and the empty string both yield the literal `"unknown"`. -/
def keyOf (dim : Dimension) (e : FailureEvent) : String :=
  match dim with
  | .failure_type => e.failure_type.str
  | .agent_name => if e.agent_name = "" then "unknown" else e.agent_name
  | .gateway =>
      match e.gateway with
      | none => "unknown"
      | some s => if s = "" then "unknown" else s

/-- One step of building `groups: Record<string, FailureEvent[]>`:
`if (!groups[key]) groups[key] = []; groups[key].push(event)`.  The object is
modelled as an insertion-ordered association list; a new key is appended at
the end (JS object enumeration order for the string keys in use). -/
def pushGroup (gs : List (String × List FailureEvent)) (k : String)
    (e : FailureEvent) : List (String × List FailureEvent) :=
  match gs with
  | [] => [(k, [e])]
  | (k', es) :: rest =>
      if k' = k then (k', es ++ [e]) :: rest else (k', es) :: pushGroup rest k e

/-- The `for (const event of events)` grouping loop of `aggregateBy`. -/
def buildGroups (f : FailureEvent → String) (events : List FailureEvent) :
    List (String × List FailureEvent) :=
  events.foldl (fun gs e => pushGroup gs (f e) e) []

/-- The `.map(([key, group]) => ({...}))` body of `aggregateBy`. -/
def toAggregated (total : Nat) (p : String × List FailureEvent) :
    AggregatedFailure :=
  { key := p.1
    count := p.2.length
    percentage := jsRoundPct p.2.length total
    first_occurrence := minList (p.2.map (fun e => e.timestamp))
    last_occurrence := maxList (p.2.map (fun e => e.timestamp)) }

/-- `.sort((a, b) => b.count - a.count)`: JavaScript's `Array.prototype.sort`
is stable, so it is modelled by (stable) insertion sort on the ranking
`rank`, descending. -/
def sortDescBy {α : Type} (rank : α → Nat) (l : List α) : List α :=
  List.insertionSort (fun a b => rank b ≤ rank a) l

/-- `aggregateBy` from `failureStore.ts`, over an explicit retrieved event
list (the source reads the module store through `getFailureEvents`). -/
def aggregateBy (dim : Dimension) (events : List FailureEvent) :
    List AggregatedFailure :=
  if events.length = 0 then []
  else
    sortDescBy (fun g : AggregatedFailure => g.count)
      ((buildGroups (keyOf dim) events).map (toAggregated events.length))

/-!  Generic facts about the stable descending sort. -/

lemma sortDescBy_perm {α : Type} (rank : α → Nat) (l : List α) :
    List.Perm (sortDescBy rank l) l :=
  List.perm_insertionSort _ l

lemma sortDescBy_sorted {α : Type} (rank : α → Nat) (l : List α) :
    (sortDescBy rank l).Pairwise (fun a b => rank b ≤ rank a) := by
  haveI : IsTotal α (fun a b => rank b ≤ rank a) :=
    ⟨fun a b => Nat.le_total (rank b) (rank a)⟩
  haveI : IsTrans α (fun a b => rank b ≤ rank a) :=
    ⟨fun _ _ _ h1 h2 => le_trans h2 h1⟩
  exact List.sorted_insertionSort _ l

lemma sortDescBy_stable_pair {α : Type} (rank : α → Nat) {a b : α}
    {l : List α} (hr : rank b ≤ rank a) (h : List.Sublist [a, b] l) :
    List.Sublist [a, b] (sortDescBy rank l) :=
  List.pair_sublist_insertionSort hr h

/-- Any two distinct members of a list occur as a pair sublist in one of the
two orders. -/
lemma pair_sublist_or {α : Type} {a b : α} :
    ∀ {l : List α}, a ∈ l → b ∈ l → a ≠ b → List.Sublist [a, b] l ∨ List.Sublist [b, a] l := by
  intro l
  induction l with
  | nil => intro ha; cases ha
  | cons x t ih =>
      intro ha hb hne
      rcases List.mem_cons.mp ha with rfl | ha'
      · have hb' : b ∈ t := by
          rcases List.mem_cons.mp hb with rfl | hb'
          · exact absurd rfl hne
          · exact hb'
        exact Or.inl ((List.singleton_sublist.mpr hb').cons₂ a)
      · rcases List.mem_cons.mp hb with rfl | hb'
        · exact Or.inr ((List.singleton_sublist.mpr ha').cons₂ b)
        · exact (ih ha' hb' hne).imp (fun h => h.cons x) (fun h => h.cons x)

/-- In a duplicate-free list a pair cannot occur as a sublist in both orders. -/
lemma pair_sublist_nodup_asymm {α : Type} {a b : α} :
    ∀ {l : List α}, l.Nodup → List.Sublist [a, b] l → List.Sublist [b, a] l → False := by
  intro l
  induction l with
  | nil => intro _ h; cases h
  | cons x t ih =>
      intro hnd hab hba
      rw [List.nodup_cons] at hnd
      cases hab with
      | cons _ hab' =>
          cases hba with
          | cons _ hba' => exact ih hnd.2 hab' hba'
          | cons₂ _ hba' => exact hnd.1 (hab'.subset (by simp))
      | cons₂ _ hab' =>
          cases hba with
          | cons _ hba' => exact hnd.1 (hba'.subset (by simp))
          | cons₂ _ hba' => exact hnd.1 (hab'.subset (by simp))

/-!  Characterisation of the grouping loop. -/

/-- First index in `evs` of an event whose key is `k`. -/
def keyIdx (f : FailureEvent → String) (evs : List FailureEvent)
    (k : String) : Nat :=
  evs.findIdx (fun e => f e == k)

/-- `gs` is the association list the grouping loop builds from `evs` under
key function `f`: duplicate-free keys in first-occurrence order, each group
holding exactly the events with that key in order, sizes summing to the
number of events. -/
def GroupingOf (f : FailureEvent → String) (evs : List FailureEvent)
    (gs : List (String × List FailureEvent)) : Prop :=
  (gs.map Prod.fst).Nodup ∧
  (∀ k, k ∈ gs.map Prod.fst ↔ k ∈ evs.map f) ∧
  (∀ p ∈ gs, p.2 = evs.filter (fun e => f e == p.1)) ∧
  (gs.map (fun p => p.2.length)).sum = evs.length ∧
  (gs.map Prod.fst).Pairwise (fun k k' => keyIdx f evs k < keyIdx f evs k')

lemma keys_pushGroup (gs : List (String × List FailureEvent)) (k : String)
    (e : FailureEvent) :
    (pushGroup gs k e).map Prod.fst =
      if k ∈ gs.map Prod.fst then gs.map Prod.fst
      else gs.map Prod.fst ++ [k] := by
  induction gs with
  | nil => simp [pushGroup]
  | cons p rest ih =>
      obtain ⟨k', es⟩ := p
      by_cases hk : k' = k
      · subst hk
        simp [pushGroup]
      · have : (k ∈ k' :: rest.map Prod.fst) ↔ k ∈ rest.map Prod.fst := by
          constructor
          · intro h
            rcases List.mem_cons.mp h with rfl | h'
            · exact absurd rfl hk
            · exact h'
          · exact fun h => List.mem_cons_of_mem _ h
        by_cases hmem : k ∈ rest.map Prod.fst
        · simp only [pushGroup, if_neg hk, List.map_cons, ih, if_pos hmem]
          simp [this, hmem]
        · simp only [pushGroup, if_neg hk, List.map_cons, ih, if_neg hmem]
          simp [this, hmem]

lemma sum_len_pushGroup (gs : List (String × List FailureEvent)) (k : String)
    (e : FailureEvent) :
    ((pushGroup gs k e).map (fun p => p.2.length)).sum =
      (gs.map (fun p => p.2.length)).sum + 1 := by
  induction gs with
  | nil => simp [pushGroup]
  | cons p rest ih =>
      obtain ⟨k', es⟩ := p
      by_cases hk : k' = k
      · subst hk
        simp [pushGroup]
        omega
      · simp only [pushGroup, if_neg hk, List.map_cons, List.sum_cons, ih]
        omega

lemma mem_pushGroup_cases (gs : List (String × List FailureEvent))
    (k : String) (e : FailureEvent) (p : String × List FailureEvent)
    (hnd : (gs.map Prod.fst).Nodup) (hp : p ∈ pushGroup gs k e) :
    (p ∈ gs ∧ p.1 ≠ k) ∨
    (∃ es, (k, es) ∈ gs ∧ p = (k, es ++ [e])) ∨
    (p = (k, [e]) ∧ k ∉ gs.map Prod.fst) := by
  induction gs with
  | nil =>
      simp only [pushGroup, List.mem_singleton] at hp
      exact Or.inr (Or.inr ⟨hp, by simp⟩)
  | cons q rest ih =>
      obtain ⟨k', es⟩ := q
      have hnd' := (List.nodup_cons.mp hnd).2
      have hknotin := (List.nodup_cons.mp hnd).1
      by_cases hk : k' = k
      · subst hk
        simp only [pushGroup, if_pos rfl] at hp
        rcases List.mem_cons.mp hp with rfl | hp'
        · exact Or.inr (Or.inl ⟨es, List.mem_cons_self _ _, rfl⟩)
        · have hp1 : p.1 ∈ rest.map Prod.fst := List.mem_map_of_mem Prod.fst hp'
          refine Or.inl ⟨List.mem_cons_of_mem _ hp', ?_⟩
          intro hcontra
          exact hknotin (hcontra ▸ hp1)
      · simp only [pushGroup, if_neg hk] at hp
        rcases List.mem_cons.mp hp with rfl | hp'
        · exact Or.inl ⟨List.mem_cons_self _ _, fun h => hk h⟩
        · rcases ih hnd' hp' with ⟨h1, h2⟩ | ⟨es', h1, h2⟩ | ⟨h1, h2⟩
          · exact Or.inl ⟨List.mem_cons_of_mem _ h1, h2⟩
          · exact Or.inr (Or.inl ⟨es', List.mem_cons_of_mem _ h1, h2⟩)
          · refine Or.inr (Or.inr ⟨h1, ?_⟩)
            intro hmem
            rcases List.mem_cons.mp hmem with h | h
            · exact hk h.symm
            · exact h2 h

lemma keyIdx_lt_length_of_mem (f : FailureEvent → String)
    {evs : List FailureEvent} {k : String} (h : k ∈ evs.map f) :
    keyIdx f evs k < evs.length := by
  obtain ⟨x, hx, rfl⟩ := List.mem_map.mp h
  exact List.findIdx_lt_length.mpr ⟨x, hx, by simp⟩

lemma keyIdx_append_of_mem (f : FailureEvent → String)
    {evs : List FailureEvent} (tail : List FailureEvent) {k : String}
    (h : k ∈ evs.map f) :
    keyIdx f (evs ++ tail) k = keyIdx f evs k := by
  have h2 : List.findIdx (fun e => f e == k) evs < evs.length :=
    keyIdx_lt_length_of_mem f h
  unfold keyIdx
  rw [List.findIdx_append, if_pos h2]

lemma keyIdx_append_new (f : FailureEvent → String)
    {evs : List FailureEvent} (e : FailureEvent) (h : f e ∉ evs.map f) :
    keyIdx f (evs ++ [e]) (f e) = evs.length := by
  unfold keyIdx
  rw [List.findIdx_append]
  have h1 : ¬ (List.findIdx (fun x => f x == f e) evs < evs.length) := by
    rw [List.findIdx_lt_length]
    rintro ⟨x, hx, hpx⟩
    rw [beq_iff_eq] at hpx
    exact h (hpx ▸ List.mem_map_of_mem f hx)
  rw [if_neg h1]
  simp [List.findIdx_cons]

lemma grouping_step (f : FailureEvent → String) {evs : List FailureEvent}
    {gs : List (String × List FailureEvent)} (e : FailureEvent)
    (h : GroupingOf f evs gs) :
    GroupingOf f (evs ++ [e]) (pushGroup gs (f e) e) := by
  obtain ⟨hnd, hmem, hfil, hsum, hpw⟩ := h
  by_cases hk : f e ∈ gs.map Prod.fst
  · have hkeys : (pushGroup gs (f e) e).map Prod.fst = gs.map Prod.fst := by
      rw [keys_pushGroup, if_pos hk]
    refine ⟨?_, ?_, ?_, ?_, ?_⟩
    · rw [hkeys]; exact hnd
    · intro k
      rw [hkeys, List.map_append]
      constructor
      · intro hkk
        exact List.mem_append_left _ ((hmem k).mp hkk)
      · intro hkk
        rcases List.mem_append.mp hkk with h1 | h1
        · exact (hmem k).mpr h1
        · simp only [List.map_cons, List.map_nil, List.mem_singleton] at h1
          exact h1 ▸ hk
    · intro p hp
      rcases mem_pushGroup_cases gs (f e) e p hnd hp with
        ⟨hpg, hpne⟩ | ⟨es, hges, rfl⟩ | ⟨_, hnotin⟩
      · rw [hfil p hpg, List.filter_append]
        have h2 : List.filter (fun x => f x == p.1) [e] = [] := by
          simp only [List.filter_cons, List.filter_nil]
          rw [beq_eq_false_iff_ne.mpr (Ne.symm hpne)]
          simp
        rw [h2, List.append_nil]
      · have hes := hfil (f e, es) hges
        simp only at hes ⊢
        rw [List.filter_append, ← hes]
        have h2 : List.filter (fun x => f x == f e) [e] = [e] := by
          simp [List.filter_cons]
        rw [h2]
      · exact absurd hk hnotin
    · rw [sum_len_pushGroup, hsum]
      simp
    · rw [hkeys]
      refine List.Pairwise.imp_of_mem ?_ hpw
      intro k k' hk1 hk2 hr
      rw [keyIdx_append_of_mem f [e] ((hmem k).mp hk1),
        keyIdx_append_of_mem f [e] ((hmem k').mp hk2)]
      exact hr
  · have hfe : f e ∉ evs.map f := fun hc => hk ((hmem (f e)).mpr hc)
    have hkeys : (pushGroup gs (f e) e).map Prod.fst
        = gs.map Prod.fst ++ [f e] := by
      rw [keys_pushGroup, if_neg hk]
    refine ⟨?_, ?_, ?_, ?_, ?_⟩
    · rw [hkeys, List.nodup_append]
      exact ⟨hnd, List.nodup_singleton _,
        fun a ha hb => hk ((List.mem_singleton.mp hb) ▸ ha)⟩
    · intro k
      rw [hkeys, List.map_append, List.mem_append, List.mem_append]
      simp only [List.map_cons, List.map_nil, List.mem_singleton]
      rw [hmem k]
    · intro p hp
      rcases mem_pushGroup_cases gs (f e) e p hnd hp with
        ⟨hpg, hpne⟩ | ⟨es, hges, rfl⟩ | ⟨hpe, _⟩
      · rw [hfil p hpg, List.filter_append]
        have h2 : List.filter (fun x => f x == p.1) [e] = [] := by
          simp only [List.filter_cons, List.filter_nil]
          rw [beq_eq_false_iff_ne.mpr (Ne.symm hpne)]
          simp
        rw [h2, List.append_nil]
      · exact absurd (List.mem_map_of_mem Prod.fst hges) hk
      · subst hpe
        simp only
        have h2 : List.filter (fun x => f x == f e) evs = [] := by
          rw [List.filter_eq_nil_iff]
          intro x hx hc
          rw [beq_iff_eq] at hc
          exact hfe (hc ▸ List.mem_map_of_mem f hx)
        rw [List.filter_append, h2, List.nil_append]
        simp [List.filter_cons]
    · rw [sum_len_pushGroup, hsum]
      simp
    · rw [hkeys, List.pairwise_append]
      refine ⟨?_, List.pairwise_singleton _ _, ?_⟩
      · refine List.Pairwise.imp_of_mem ?_ hpw
        intro k k' hk1 hk2 hr
        rw [keyIdx_append_of_mem f [e] ((hmem k).mp hk1),
          keyIdx_append_of_mem f [e] ((hmem k').mp hk2)]
        exact hr
      · intro k hk1 k' hk2
        rw [List.mem_singleton] at hk2
        subst hk2
        have hk1' := (hmem k).mp hk1
        rw [keyIdx_append_of_mem f [e] hk1', keyIdx_append_new f e hfe]
        exact keyIdx_lt_length_of_mem f hk1'

lemma grouping_foldl (f : FailureEvent → String) :
    ∀ (tail pre : List FailureEvent) (gs : List (String × List FailureEvent)),
      GroupingOf f pre gs →
      GroupingOf f (pre ++ tail)
        (tail.foldl (fun gs e => pushGroup gs (f e) e) gs) := by
  intro tail
  induction tail with
  | nil =>
      intro pre gs h
      simpa using h
  | cons e t ih =>
      intro pre gs h
      have h1 := grouping_step f e h
      have h2 := ih (pre ++ [e]) _ h1
      simpa [List.append_assoc] using h2

lemma grouping_buildGroups (f : FailureEvent → String)
    (evs : List FailureEvent) : GroupingOf f evs (buildGroups f evs) := by
  have h0 : GroupingOf f [] [] := by
    refine ⟨List.nodup_nil, by simp, by simp, by simp, List.Pairwise.nil⟩
  have := grouping_foldl f evs [] [] h0
  simpa [buildGroups] using this

lemma aggregateBy_eq (dim : Dimension) {evs : List FailureEvent}
    (h : evs ≠ []) :
    aggregateBy dim evs =
      sortDescBy (fun g : AggregatedFailure => g.count)
        ((buildGroups (keyOf dim) evs).map (toAggregated evs.length)) := by
  unfold aggregateBy
  rw [if_neg (by simpa using h)]

lemma aggregateBy_mapped_keys (dim : Dimension) (evs : List FailureEvent) :
    ((buildGroups (keyOf dim) evs).map (toAggregated evs.length)).map
        (fun g => g.key)
      = (buildGroups (keyOf dim) evs).map Prod.fst := by
  rw [List.map_map]
  rfl

lemma aggregateBy_perm (dim : Dimension) {evs : List FailureEvent}
    (h : evs ≠ []) :
    List.Perm (aggregateBy dim evs)
      ((buildGroups (keyOf dim) evs).map (toAggregated evs.length)) := by
  rw [aggregateBy_eq dim h]
  exact sortDescBy_perm _ _

/-- Convenience constructor for concrete test events. -/
def mkEvent (ft : FailureType) (agent : String) (gw : Option String)
    (ts : Int) (err : Option String) : FailureEvent :=
  { id := "", failure_type := ft, agent_name := agent, gateway := gw,
    timestamp := ts, request_id := "", correlation_id := none,
    error_message := err, metadata := none }

/-- C2: for every dimension and every event list, `aggregateBy` on the empty
list returns the empty list; on a non-empty list it returns one group per
distinct key value (keys computed by `keyOf`, which yields the literal
`"unknown"` when the event's field for the dimension is absent), with group
counts summing to the number of events, groups sorted in descending order of
count, and ties ordered by first occurrence of their key in the event list
(stable/insertion order). -/
theorem aggregateBy_spec (dim : Dimension) (evs : List FailureEvent)
    (h : evs ≠ []) :
    aggregateBy dim [] = [] ∧
    ((aggregateBy dim evs).map (fun g => g.key)).Nodup ∧
    (∀ k, k ∈ (aggregateBy dim evs).map (fun g => g.key) ↔
        k ∈ evs.map (keyOf dim)) ∧
    (∀ g ∈ aggregateBy dim evs,
        g.count = (evs.filter (fun x => keyOf dim x == g.key)).length) ∧
    ((aggregateBy dim evs).map (fun g => g.count)).sum = evs.length ∧
    (aggregateBy dim evs).Pairwise (fun a b => b.count ≤ a.count) ∧
    (∀ a b, List.Sublist [a, b] (aggregateBy dim evs) → a.count = b.count →
        keyIdx (keyOf dim) evs a.key < keyIdx (keyOf dim) evs b.key) := by
  obtain ⟨hnd, hmem, hfil, hsum, hpw⟩ := grouping_buildGroups (keyOf dim) evs
  have hperm := aggregateBy_perm dim (h : evs ≠ [])
  have hkeyperm :
      List.Perm ((aggregateBy dim evs).map (fun g => g.key))
        ((buildGroups (keyOf dim) evs).map Prod.fst) := by
    rw [← aggregateBy_mapped_keys dim evs]
    exact hperm.map _
  have hndL : ((aggregateBy dim evs).map (fun g => g.key)).Nodup :=
    hkeyperm.nodup_iff.mpr hnd
  refine ⟨rfl, hndL, ?_, ?_, ?_, ?_, ?_⟩
  · intro k
    exact hkeyperm.mem_iff.trans (hmem k)
  · intro g hg
    obtain ⟨p, hp, rfl⟩ := List.mem_map.mp (hperm.subset hg)
    simp only [toAggregated]
    rw [hfil p hp]
  · have h1 := (hperm.map (fun g => g.count)).sum_eq
    rw [h1, List.map_map]
    have h2 : (buildGroups (keyOf dim) evs).map
        ((fun g : AggregatedFailure => g.count) ∘ toAggregated evs.length)
        = (buildGroups (keyOf dim) evs).map (fun p => p.2.length) := rfl
    rw [h2, hsum]
  · rw [aggregateBy_eq dim h]
    exact sortDescBy_sorted _ _
  · intro a b hab hcnt
    have hLnd : (aggregateBy dim evs).Nodup := List.Nodup.of_map _ hndL
    have hne : a ≠ b := by
      have h2 := hLnd.sublist hab
      rw [List.nodup_cons] at h2
      intro hc
      exact h2.1 (hc ▸ List.mem_singleton.mpr rfl)
    have haM : a ∈ (buildGroups (keyOf dim) evs).map (toAggregated evs.length) :=
      hperm.subset (hab.subset (by simp))
    have hbM : b ∈ (buildGroups (keyOf dim) evs).map (toAggregated evs.length) :=
      hperm.subset (hab.subset (by simp))
    rcases pair_sublist_or haM hbM hne with h1 | h1
    · have h2 := h1.map (fun g : AggregatedFailure => g.key)
      simp only [List.map_cons, List.map_nil] at h2
      rw [aggregateBy_mapped_keys dim evs] at h2
      have h3 := List.Pairwise.sublist h2 hpw
      exact (List.pairwise_cons.mp h3).1 b.key (by simp)
    · have h2 : List.Sublist [b, a]
          (sortDescBy (fun g : AggregatedFailure => g.count)
            ((buildGroups (keyOf dim) evs).map (toAggregated evs.length))) :=
        sortDescBy_stable_pair _ hcnt.le h1
      rw [← aggregateBy_eq dim h] at h2
      exact absurd h2 (fun hc => pair_sublist_nodup_asymm hLnd hab hc)

/-- C2 witness: concrete instantiation on a two-event list. -/
theorem aggregateBy_spec_witness :
    ([mkEvent .payment "hulk" none 0 none,
      mkEvent .fraud "aisha" none 1 none] : List FailureEvent) ≠ [] ∧
    ((aggregateBy Dimension.agent_name
        [mkEvent .payment "hulk" none 0 none,
         mkEvent .fraud "aisha" none 1 none]).map
      (fun g => g.count)).sum = 2 := by
  refine ⟨by decide, ?_⟩
  have h := (aggregateBy_spec Dimension.agent_name
    [mkEvent .payment "hulk" none 0 none, mkEvent .fraud "aisha" none 1 none]
    (by decide)).2.2.2.2.1
  simpa using h

lemma aggregateBy_percentage (dim : Dimension) {evs : List FailureEvent}
    (h : evs ≠ []) :
    ∀ g ∈ aggregateBy dim evs,
      g.percentage = jsRoundPct g.count evs.length := by
  intro g hg
  obtain ⟨p, hp, rfl⟩ :=
    List.mem_map.mp ((aggregateBy_perm dim h).subset hg)
  rfl

lemma aggregateBy_count_sum (dim : Dimension) {evs : List FailureEvent}
    (h : evs ≠ []) :
    ((aggregateBy dim evs).map (fun g => g.count)).sum = evs.length := by
  obtain ⟨hnd, hmem, hfil, hsum, hpw⟩ := grouping_buildGroups (keyOf dim) evs
  have h1 := ((aggregateBy_perm dim h).map (fun g => g.count)).sum_eq
  rw [h1, List.map_map]
  have h2 : (buildGroups (keyOf dim) evs).map
      ((fun g : AggregatedFailure => g.count) ∘ toAggregated evs.length)
      = (buildGroups (keyOf dim) evs).map (fun p => p.2.length) := rfl
  rw [h2, hsum]

lemma aggregateBy_ne_nil (dim : Dimension) {evs : List FailureEvent}
    (h : evs ≠ []) : aggregateBy dim evs ≠ [] := by
  obtain ⟨x, t, rfl⟩ := List.exists_cons_of_ne_nil h
  obtain ⟨hnd, hmem, hfil, hsum, hpw⟩ :=
    grouping_buildGroups (keyOf dim) (x :: t)
  intro hc
  have h1 : keyOf dim x ∈ ((x :: t).map (keyOf dim)) := by simp
  have h2 : keyOf dim x ∈ (buildGroups (keyOf dim) (x :: t)).map Prod.fst :=
    (hmem _).mpr h1
  have h3 : keyOf dim x ∈
      (aggregateBy dim (x :: t)).map (fun g => g.key) := by
    have hkp := (aggregateBy_perm dim (h)).map
      (fun g : AggregatedFailure => g.key)
    rw [aggregateBy_mapped_keys dim (x :: t)] at hkp
    exact hkp.mem_iff.mpr h2
  rw [hc] at h3
  simp at h3

lemma pct_sum_bounds (T : Nat) (hT : 0 < T) :
    ∀ l : List AggregatedFailure,
      (∀ g ∈ l, g.percentage = jsRoundPct g.count T) →
      2 * T * ((l.map (fun g => g.percentage)).sum) ≤
          200 * ((l.map (fun g => g.count)).sum) + l.length * T ∧
      200 * ((l.map (fun g => g.count)).sum) + l.length * T + l.length ≤
          2 * T * ((l.map (fun g => g.percentage)).sum) + 2 * T * l.length := by
  intro l
  induction l with
  | nil => intro _; simp
  | cons g t ih =>
      intro hp
      have hg := hp g (List.mem_cons_self g t)
      have iht := ih (fun x hx => hp x (List.mem_cons_of_mem _ hx))
      have e1 : 2 * T * g.percentage ≤ 200 * g.count + T := by
        rw [hg]
        unfold jsRoundPct
        have h1 := Nat.div_mul_le_self (200 * g.count + T) (2 * T)
        linarith [h1]
      have e2 : 200 * g.count + T + 1 ≤ 2 * T * g.percentage + 2 * T := by
        rw [hg]
        unfold jsRoundPct
        have hdm := Nat.div_add_mod (200 * g.count + T) (2 * T)
        have hmlt : (200 * g.count + T) % (2 * T) < 2 * T :=
          Nat.mod_lt _ (by omega)
        linarith [hdm, hmlt]
      constructor
      · simp only [List.map_cons, List.sum_cons, List.length_cons]
        have g1 := iht.1
        linarith [g1, e1]
      · simp only [List.map_cons, List.sum_cons, List.length_cons]
        have g2 := iht.2
        linarith [g2, e2]

/-- C3 (amended): on a non-empty event list every group's percentage is the
round-half-up integer `round(count / total * 100)` (a single consistent
rounding rule), and the percentage sum `S` over the `G` returned groups
satisfies `200 - G < 2*S ≤ 200 + G`; in particular `S ∈ [99, 101]` whenever
at most two groups are returned.  (For more than two groups the sum can
leave `[99, 101]`: six singleton groups each round `16.67%` up to `17`, so
the sum is `102` — see the counterexample.) -/
theorem aggregateBy_percentage_bounds (dim : Dimension)
    (evs : List FailureEvent) (h : evs ≠ []) :
    (∀ g ∈ aggregateBy dim evs,
        g.percentage = jsRoundPct g.count evs.length) ∧
    200 < 2 * ((aggregateBy dim evs).map (fun g => g.percentage)).sum +
        (aggregateBy dim evs).length ∧
    2 * ((aggregateBy dim evs).map (fun g => g.percentage)).sum ≤
        200 + (aggregateBy dim evs).length ∧
    ((aggregateBy dim evs).length ≤ 2 →
      99 ≤ ((aggregateBy dim evs).map (fun g => g.percentage)).sum ∧
        ((aggregateBy dim evs).map (fun g => g.percentage)).sum ≤ 101) := by
  have hT : 0 < evs.length := by
    cases evs with
    | nil => exact absurd rfl h
    | cons x t => simp
  have hpct := aggregateBy_percentage dim h
  have hb := pct_sum_bounds evs.length hT (aggregateBy dim evs) hpct
  have hsum := aggregateBy_count_sum dim h
  rw [hsum] at hb
  have hG : 0 < (aggregateBy dim evs).length := by
    have := aggregateBy_ne_nil dim h
    cases hL : aggregateBy dim evs with
    | nil => exact absurd hL this
    | cons x t => simp [hL]
  set T := evs.length with hTdef
  set S := ((aggregateBy dim evs).map (fun g => g.percentage)).sum with hSdef
  set G := (aggregateBy dim evs).length with hGdef
  have ha : 2 * S ≤ 200 + G := by
    have h1 : T * (2 * S) ≤ T * (200 + G) := by linarith [hb.1]
    exact Nat.le_of_mul_le_mul_left h1 hT
  have hc : 200 < 2 * S + G := by
    have h1 : T * 200 < T * (2 * S + G) := by linarith [hb.2, hG, hT]
    exact Nat.lt_of_mul_lt_mul_left h1
  exact ⟨hpct, hc, ha, fun hG2 => by omega⟩

/-- Six events with six distinct agent names (each 1/6 of the total). -/
def sixSingletonEvents : List FailureEvent :=
  [mkEvent .payment "a1" none 0 none, mkEvent .payment "a2" none 1 none,
   mkEvent .payment "a3" none 2 none, mkEvent .payment "a4" none 3 none,
   mkEvent .payment "a5" none 4 none, mkEvent .payment "a6" none 5 none]

/-- C3 counterexample: for six events with six distinct keys every group's
percentage is `round(100/6) = 17`, so the percentages sum to `102`, which is
outside the claimed interval `[99, 101]`. -/
theorem aggregateBy_percentage_sum_counterexample :
    ((aggregateBy Dimension.agent_name sixSingletonEvents).map
        (fun g => g.percentage)).sum = 102 ∧
    ¬ (99 ≤ ((aggregateBy Dimension.agent_name sixSingletonEvents).map
          (fun g => g.percentage)).sum ∧
        ((aggregateBy Dimension.agent_name sixSingletonEvents).map
          (fun g => g.percentage)).sum ≤ 101) := by
  constructor
  · decide
  · decide

/-- C3 witness: concrete instantiation of the amended bounds on a two-event
list (two groups, percentages 50 + 50 = 100 ∈ [99, 101]). -/
theorem aggregateBy_percentage_bounds_witness :
    ([mkEvent .payment "x" none 0 none,
      mkEvent .payment "y" none 1 none] : List FailureEvent) ≠ [] ∧
    (aggregateBy Dimension.agent_name
        [mkEvent .payment "x" none 0 none,
         mkEvent .payment "y" none 1 none]).length ≤ 2 ∧
    99 ≤ ((aggregateBy Dimension.agent_name
        [mkEvent .payment "x" none 0 none,
         mkEvent .payment "y" none 1 none]).map
        (fun g => g.percentage)).sum ∧
    ((aggregateBy Dimension.agent_name
        [mkEvent .payment "x" none 0 none,
         mkEvent .payment "y" none 1 none]).map
        (fun g => g.percentage)).sum ≤ 101 := by
  have h := (aggregateBy_percentage_bounds Dimension.agent_name
    [mkEvent .payment "x" none 0 none, mkEvent .payment "y" none 1 none]
    (by decide)).2.2.2 (by decide)
  exact ⟨by decide, by decide, h.1, h.2⟩

/-!  `getGatewayFailureRanking` from `failureStore.ts`. -/

/-- JavaScript truthiness of `e.gateway` in `.filter(e => e.gateway)`:
`undefined` and the empty string are falsy. -/
def truthyGateway : Option String → Bool
  | none => false
  | some s => !(s == "")

/-- `const key = event.gateway!` (non-null assertion): on the filtered list
the gateway is always present; the unreachable `none` case maps to `""`. -/
def gwKey (e : FailureEvent) : String :=
  match e.gateway with
  | some s => s
  | none => ""

/-- `getGatewayFailureRanking` over an explicit event list: keep only events
with a (truthy) gateway, then group/percentage/sort exactly as `aggregateBy`,
with the percentage base being the count of gateway-bearing events. -/
def getGatewayFailureRanking (events : List FailureEvent) :
    List AggregatedFailure :=
  if (events.filter (fun e => truthyGateway e.gateway)).length = 0 then []
  else
    sortDescBy (fun g : AggregatedFailure => g.count)
      ((buildGroups gwKey
          (events.filter (fun e => truthyGateway e.gateway))).map
        (toAggregated
          (events.filter (fun e => truthyGateway e.gateway)).length))

lemma ranking_eq {evs : List FailureEvent}
    (h : ¬ (evs.filter (fun e => truthyGateway e.gateway)).length = 0) :
    getGatewayFailureRanking evs =
      sortDescBy (fun g : AggregatedFailure => g.count)
        ((buildGroups gwKey
            (evs.filter (fun e => truthyGateway e.gateway))).map
          (toAggregated
            (evs.filter (fun e => truthyGateway e.gateway)).length)) := by
  unfold getGatewayFailureRanking
  rw [if_neg h]

/-- Scenario B of the spec: 12 payment failures on gateway `"stripe"` and 3
on `"paypal"`, all from agent `"hulk"`. -/
def scenarioBEvents : List FailureEvent :=
  List.replicate 12 (mkEvent .payment "hulk" (some "stripe") 0 none) ++
    List.replicate 3 (mkEvent .payment "hulk" (some "paypal") 0 none)

/-- C5: `getGatewayFailureRanking` first removes the events with no (truthy)
gateway value; group counts sum to the number of gateway-bearing events, and
every group's percentage is computed relative to that filtered count (not
the full set), every returned key being a gateway value of some
gateway-bearing event.  On Scenario B (12 `"stripe"` + 3 `"paypal"`) it
returns stripe with count 12 and percentage 80 followed by paypal with
count 3 and percentage 20. -/
theorem getGatewayFailureRanking_spec (evs : List FailureEvent) :
    (((getGatewayFailureRanking evs).map (fun g => g.count)).sum
        = (evs.filter (fun e => truthyGateway e.gateway)).length) ∧
    (∀ g ∈ getGatewayFailureRanking evs,
        g.percentage = jsRoundPct g.count
          (evs.filter (fun e => truthyGateway e.gateway)).length ∧
        g.key ∈ (evs.filter (fun e => truthyGateway e.gateway)).map gwKey) ∧
    ((getGatewayFailureRanking scenarioBEvents).map
        (fun g => (g.key, g.count, g.percentage))
      = [("stripe", 12, 80), ("paypal", 3, 20)]) := by
  refine ⟨?_, ?_, by decide⟩
  · by_cases h : (evs.filter (fun e => truthyGateway e.gateway)).length = 0
    · have hr : getGatewayFailureRanking evs = [] := by
        unfold getGatewayFailureRanking
        rw [if_pos h]
      rw [hr, h]
      rfl
    · obtain ⟨hnd, hmem, hfil, hsum, hpw⟩ := grouping_buildGroups gwKey
        (evs.filter (fun e => truthyGateway e.gateway))
      have hperm : List.Perm (getGatewayFailureRanking evs)
          ((buildGroups gwKey
              (evs.filter (fun e => truthyGateway e.gateway))).map
            (toAggregated
              (evs.filter (fun e => truthyGateway e.gateway)).length)) := by
        rw [ranking_eq h]
        exact sortDescBy_perm _ _
      have h1 := (hperm.map (fun g : AggregatedFailure => g.count)).sum_eq
      rw [h1, List.map_map]
      exact hsum
  · by_cases h : (evs.filter (fun e => truthyGateway e.gateway)).length = 0
    · intro g hg
      have hr : getGatewayFailureRanking evs = [] := by
        unfold getGatewayFailureRanking
        rw [if_pos h]
      rw [hr] at hg
      simp at hg
    · obtain ⟨hnd, hmem, hfil, hsum, hpw⟩ := grouping_buildGroups gwKey
        (evs.filter (fun e => truthyGateway e.gateway))
      intro g hg
      rw [ranking_eq h] at hg
      have hg2 := (sortDescBy_perm _ _).subset hg
      obtain ⟨p, hp, rfl⟩ := List.mem_map.mp hg2
      refine ⟨rfl, ?_⟩
      exact (hmem _).mp (List.mem_map_of_mem Prod.fst hp)

/-!  `getRepeatedPatterns` from `failureStore.ts`. -/

/-- The accumulated value for one composite pattern key:
`{ count, agent, gateway }` (agent and gateway are taken from the first
event that created the entry). -/
structure PatternAcc where
  count : Nat
  agent : String
  gateway : Option String
deriving DecidableEq, Repr

/-- The composite pattern key
``agent_name + ":" + (gateway || 'none') + ":" + (error_message || 'unknown')``
(JS falsy coercion: absent or empty gateway is `"none"`, absent or empty
error message is `"unknown"`). -/
def patternKey (e : FailureEvent) : String :=
  e.agent_name ++ ":" ++
    (match e.gateway with
     | none => "none"
     | some s => if s = "" then "none" else s) ++ ":" ++
    (match e.error_message with
     | none => "unknown"
     | some s => if s = "" then "unknown" else s)

/-- One loop step: `if (!patterns[patternKey]) patterns[patternKey] =
{count: 0, agent, gateway}; patterns[patternKey].count++` — a missing entry
is created with count 0 and immediately incremented, hence count 1. -/
def pushPattern (ps : List (String × PatternAcc)) (k : String)
    (e : FailureEvent) : List (String × PatternAcc) :=
  match ps with
  | [] => [(k, { count := 1, agent := e.agent_name, gateway := e.gateway })]
  | (k', d) :: rest =>
      if k' = k then (k', { d with count := d.count + 1 }) :: rest
      else (k', d) :: pushPattern rest k e

/-- The `for (const event of events)` accumulation loop. -/
def buildPatterns (events : List FailureEvent) :
    List (String × PatternAcc) :=
  events.foldl (fun ps e => pushPattern ps (patternKey e) e) []

/-- Result entries of `getRepeatedPatterns`. -/
structure RepeatedPattern where
  pattern : String
  count : Nat
  agent : String
  gateway : Option String
deriving DecidableEq, Repr

/-- `const minCount = options?.minOccurrences || 2`: absent **and zero**
(falsy) both default to 2. -/
def minCountOf (minOccurrences : Option Nat) : Nat :=
  match minOccurrences with
  | none => 2
  | some 0 => 2
  | some k => k

/-- `getRepeatedPatterns` over an explicit event list:
group by the composite key, keep entries with `count ≥ minCount`, map to
result records, sort descending by count. -/
def getRepeatedPatterns (events : List FailureEvent)
    (minOccurrences : Option Nat) : List RepeatedPattern :=
  sortDescBy (fun p : RepeatedPattern => p.count)
    (((buildPatterns events).filter
        (fun p => minCountOf minOccurrences ≤ p.2.count)).map
      (fun p => { pattern := p.1, count := p.2.count, agent := p.2.agent,
                  gateway := p.2.gateway }))

lemma minCountOf_pos {k : Nat} (hk : 1 ≤ k) : minCountOf (some k) = k := by
  cases k with
  | zero => omega
  | succ n => rfl

lemma getRepeatedPatterns_length (evs : List FailureEvent)
    (m : Option Nat) :
    (getRepeatedPatterns evs m).length =
      ((buildPatterns evs).filter
        (fun p => minCountOf m ≤ p.2.count)).length := by
  unfold getRepeatedPatterns
  rw [(sortDescBy_perm _ _).length_eq, List.length_map]

/-- C4 (amended): `getRepeatedPatterns` never returns a group whose count is
below the given threshold; the absent threshold defaults to 2 (and, because
`0` is falsy in `minOccurrences || 2`, an explicit threshold of 0 is also
treated as 2 — so raising the threshold from 0 to 1 can *increase* the
result length, see the counterexample); for thresholds `k ≥ 1`, raising the
threshold never increases the length of the returned list; groups are sorted
descending by count. -/
theorem getRepeatedPatterns_threshold_spec (evs : List FailureEvent)
    (k k' : Nat) (hk : 1 ≤ k) (hkk : k ≤ k') :
    (∀ m : Nat, ∀ g ∈ getRepeatedPatterns evs (some m), m ≤ g.count) ∧
    getRepeatedPatterns evs none = getRepeatedPatterns evs (some 2) ∧
    (getRepeatedPatterns evs (some k')).length ≤
      (getRepeatedPatterns evs (some k)).length ∧
    (getRepeatedPatterns evs (some k)).Pairwise
      (fun a b => b.count ≤ a.count) := by
  refine ⟨?_, rfl, ?_, ?_⟩
  · intro m g hg
    have hg2 := (sortDescBy_perm _ _).subset hg
    obtain ⟨p, hp, rfl⟩ := List.mem_map.mp hg2
    have h2 := (List.mem_filter.mp hp).2
    have h3 : minCountOf (some m) ≤ p.2.count := of_decide_eq_true h2
    cases m with
    | zero => exact Nat.zero_le _
    | succ n => exact h3
  · rw [getRepeatedPatterns_length, getRepeatedPatterns_length,
      minCountOf_pos hk, minCountOf_pos (le_trans hk hkk),
      ← List.countP_eq_length_filter, ← List.countP_eq_length_filter]
    apply List.countP_mono_left
    intro x _ hpx
    have h1 : k' ≤ x.2.count := of_decide_eq_true hpx
    exact decide_eq_true (le_trans hkk h1)
  · exact sortDescBy_sorted _ _

/-- A single payment failure event with an error message. -/
def c4Event : FailureEvent :=
  mkEvent .payment "hulk" (some "stripe") 0 (some "Card declined")

/-- C4 counterexample: with one event (one pattern of count 1), an explicit
threshold of 0 is falsy and becomes 2, yielding an empty result, while
threshold 1 yields one entry — raising the threshold from 0 to 1 *increases*
the result length, refuting unrestricted monotonicity. -/
theorem getRepeatedPatterns_monotonic_counterexample :
    (getRepeatedPatterns [c4Event] (some 0)).length = 0 ∧
    (getRepeatedPatterns [c4Event] (some 1)).length = 1 ∧
    ¬ ((getRepeatedPatterns [c4Event] (some 1)).length ≤
        (getRepeatedPatterns [c4Event] (some 0)).length) := by
  refine ⟨by decide, by decide, by decide⟩

/-- C4 witness: concrete instantiation with thresholds 2 ≤ 3 on a two-event
list. -/
theorem getRepeatedPatterns_threshold_spec_witness :
    (1 ≤ 2 ∧ 2 ≤ 3) ∧
    (getRepeatedPatterns [c4Event, c4Event] (some 3)).length ≤
      (getRepeatedPatterns [c4Event, c4Event] (some 2)).length := by
  exact ⟨⟨by decide, by decide⟩,
    (getRepeatedPatterns_threshold_spec [c4Event, c4Event] 2 3
      (by decide) (by decide)).2.2.1⟩

lemma aggregateBy_key_mem (dim : Dimension) {evs : List FailureEvent}
    (h : evs ≠ []) (k : String) :
    k ∈ (aggregateBy dim evs).map (fun g => g.key) ↔
      k ∈ evs.map (keyOf dim) := by
  obtain ⟨hnd, hmem, hfil, hsum, hpw⟩ := grouping_buildGroups (keyOf dim) evs
  have hkeyperm :
      List.Perm ((aggregateBy dim evs).map (fun g => g.key))
        ((buildGroups (keyOf dim) evs).map Prod.fst) := by
    rw [← aggregateBy_mapped_keys dim evs]
    exact (aggregateBy_perm dim h).map _
  exact hkeyperm.mem_iff.trans (hmem k)

lemma aggregateBy_count_char (dim : Dimension) {evs : List FailureEvent}
    (h : evs ≠ []) :
    ∀ g ∈ aggregateBy dim evs,
      g.count = (evs.filter (fun x => keyOf dim x == g.key)).length := by
  obtain ⟨hnd, hmem, hfil, hsum, hpw⟩ := grouping_buildGroups (keyOf dim) evs
  intro g hg
  obtain ⟨p, hp, rfl⟩ := List.mem_map.mp ((aggregateBy_perm dim h).subset hg)
  simp only [toAggregated]
  rw [hfil p hp]

/-- C10: an event whose gateway is present but equal to the empty string is
falsy in JavaScript: `aggregateBy 'gateway'` sends it to the `"unknown"`
group (its key is `"unknown"` and the unknown-group count includes it),
while `getGatewayFailureRanking` drops it entirely — prepending such an
event changes neither the returned groups nor the percentage base. -/
theorem gateway_empty_string_treatment (evs : List FailureEvent)
    (e : FailureEvent) (h : e.gateway = some "") :
    keyOf Dimension.gateway e = "unknown" ∧
    getGatewayFailureRanking (e :: evs) = getGatewayFailureRanking evs ∧
    (∃ g ∈ aggregateBy Dimension.gateway (e :: evs),
        g.key = "unknown" ∧
        g.count = (evs.filter
          (fun x => keyOf Dimension.gateway x == "unknown")).length + 1) := by
  have hk : keyOf Dimension.gateway e = "unknown" := by
    simp [keyOf, h]
  have hne : (e :: evs) ≠ [] := by simp
  refine ⟨hk, ?_, ?_⟩
  · have hf : (e :: evs).filter (fun x => truthyGateway x.gateway)
        = evs.filter (fun x => truthyGateway x.gateway) := by
      rw [List.filter_cons]
      have h2 : truthyGateway e.gateway = false := by rw [h]; rfl
      simp [h2]
    simp only [getGatewayFailureRanking, hf]
  · have h1 : "unknown" ∈ ((e :: evs).map (keyOf Dimension.gateway)) := by
      simp [hk]
    have h2 : "unknown" ∈
        (aggregateBy Dimension.gateway (e :: evs)).map (fun g => g.key) :=
      (aggregateBy_key_mem Dimension.gateway hne "unknown").mpr h1
    obtain ⟨g, hgmem, hgkey⟩ := List.mem_map.mp h2
    refine ⟨g, hgmem, hgkey, ?_⟩
    have h3 := aggregateBy_count_char Dimension.gateway hne g hgmem
    rw [h3, hgkey, List.filter_cons]
    have h4 : (keyOf Dimension.gateway e == "unknown") = true := by
      rw [hk]
      rfl
    simp [h4]

/-- A payment event with a present-but-empty gateway string. -/
def emptyGatewayEvent : FailureEvent :=
  mkEvent .payment "hulk" (some "") 0 none

/-- A payment event with gateway `"stripe"`. -/
def stripeEvent : FailureEvent :=
  mkEvent .payment "hulk" (some "stripe") 1 none

/-- C10 witness: concrete instantiation — the empty-string-gateway event
keys as `"unknown"` for `aggregateBy` and its presence does not change the
gateway ranking. -/
theorem gateway_empty_string_treatment_witness :
    keyOf Dimension.gateway emptyGatewayEvent = "unknown" ∧
    getGatewayFailureRanking [emptyGatewayEvent, stripeEvent]
      = getGatewayFailureRanking [stripeEvent] := by
  have h := gateway_empty_string_treatment [stripeEvent]
    emptyGatewayEvent rfl
  exact ⟨h.1, h.2.1⟩

/-!  The remaining store queries (`failureStore.ts`) needed by the RCA
engine. -/

/-- The options object of `getFailureEvents`. -/
structure QueryOptions where
  since : Option Int
  untilTime : Option Int
  failure_type : Option FailureType
  agent_name : Option String
  gateway : Option String
deriving DecidableEq, Repr

/-- `getFailureEvents`: copy the store, then apply each truthy filter in
order.  `since`/`until` are `Date` objects (always truthy when present);
`agent_name`/`gateway` are strings, so a present-but-empty string is falsy
and applies no filter. -/
def getFailureEvents (store : List FailureEvent) (o : QueryOptions) :
    List FailureEvent :=
  let e1 := match o.since with
    | none => store
    | some s => store.filter (fun e => s ≤ e.timestamp)
  let e2 := match o.untilTime with
    | none => e1
    | some u => e1.filter (fun e => e.timestamp ≤ u)
  let e3 := match o.failure_type with
    | none => e2
    | some ft => e2.filter (fun e => e.failure_type == ft)
  let e4 := match o.agent_name with
    | none => e3
    | some a => if a = "" then e3 else e3.filter (fun e => e.agent_name == a)
  match o.gateway with
  | none => e4
  | some gw => if gw = "" then e4 else e4.filter (fun e => e.gateway == some gw)

/-- A query filtering only on `since` (the shape used by the RCA engine). -/
def sinceOnly (s : Int) : QueryOptions :=
  ⟨some s, none, none, none, none⟩

/-- `date.getHours()` modelled under a fixed (UTC) clock: the source uses
host-local time, flagged by the spec as a latent timezone issue. -/
def hourOfTimestamp (ts : Int) : Nat :=
  ((ts.ediv 3600000).emod 24).toNat

/-- `getFailuresByHour`: count events per hour-of-day bucket, compute the
percentage per bucket, drop empty buckets, sort descending by count. -/
def getFailuresByHour (events : List FailureEvent) : List TimeWindowStats :=
  if events.length = 0 then []
  else
    sortDescBy (fun b : TimeWindowStats => b.count)
      (((List.range 24).map (fun h =>
          { hour := h
            count := events.countP
              (fun e => hourOfTimestamp e.timestamp == h)
            percentage :=
              if 0 < events.length then
                jsRoundPct
                  (events.countP (fun e => hourOfTimestamp e.timestamp == h))
                  events.length
              else 0 : TimeWindowStats })).filter
        (fun b => 0 < b.count))

/-- `getPeakFailureHours(topN)`: the first `topN` buckets. -/
def getPeakFailureHours (topN : Nat) (events : List FailureEvent) :
    List TimeWindowStats :=
  (getFailuresByHour events).take topN

/-!  The RCA engine (`rcaEngine.ts`). -/

/-- A JavaScript number that may be `NaN` (`none`). -/
abbrev JSNum := Option Int

/-- `const hoursBack = options?.hoursBack || 24`: absent, `NaN` and `0` are
all falsy and default to 24. -/
def effectiveHoursBack (hoursBack : Option JSNum) : Int :=
  match hoursBack with
  | none => 24
  | some none => 24
  | some (some 0) => 24
  | some (some h) => h

/-- `insights.most_failing_gateway` / `most_failing_agent` entries. -/
structure TopEntry where
  name : String
  percentage : Nat
  count : Nat
deriving DecidableEq, Repr

/-- `insights.peak_failure_window`. -/
structure PeakWindow where
  hours : String
  percentage : Nat
deriving DecidableEq, Repr

/-- `insights.top_pattern`. -/
structure TopPattern where
  description : String
  count : Nat
deriving DecidableEq, Repr

/-- `RCAReport` from `rcaEngine.ts`, with the nested object groups
flattened into prefixed fields (`time_window.from` ↦ `time_window_from`,
`summary.total_failures` ↦ `total_failures`, `insights.x` ↦ `x`, …). -/
structure RCAReport where
  generated_at : Int
  time_window_from : Int
  time_window_to : Int
  time_window_hours : Int
  total_failures : Nat
  by_type : List AggregatedFailure
  by_agent : List AggregatedFailure
  by_gateway : List AggregatedFailure
  peak_hours : List TimeWindowStats
  hourly_distribution : List TimeWindowStats
  repeated_failures : List RepeatedPattern
  most_failing_gateway : Option TopEntry
  most_failing_agent : Option TopEntry
  peak_failure_window : Option PeakWindow
  top_pattern : Option TopPattern
  ai_summary : Option String
deriving DecidableEq, Repr

/-- `Math.min` over a non-empty `Nat` list (hour numbers). -/
def natListMin : List Nat → Nat
  | [] => 0
  | x :: xs => xs.foldl min x

/-- `Math.max` over a non-empty `Nat` list (hour numbers). -/
def natListMax : List Nat → Nat
  | [] => 0
  | x :: xs => xs.foldl max x

/-- `formatHour` from `rcaEngine.ts`. -/
def formatHour (hour : Nat) : String :=
  let h := hour % 24
  if h = 0 then "12 AM"
  else if h = 12 then "12 PM"
  else if h < 12 then toString h ++ " AM"
  else toString (h - 12) ++ " PM"

/-- The report assembled by `analyzeFailures` **before** the AI-summary
step (`report.ai_summary` is still unset): statistics gathering and the
rule-based insights. -/
def rcaBaseReport (store : List FailureEvent) (now : Int)
    (hoursBack : Option JSNum) : RCAReport :=
  let hb := effectiveHoursBack hoursBack
  let since := now - hb * 3600000
  let evs := getFailureEvents store (sinceOnly since)
  let byType := aggregateBy .failure_type evs
  let byAgent := aggregateBy .agent_name evs
  let byGateway := getGatewayFailureRanking evs
  let peakHours := getPeakFailureHours 3 evs
  let hourly := getFailuresByHour evs
  let repeated := getRepeatedPatterns evs (some 2)
  { generated_at := now
    time_window_from := since
    time_window_to := now
    time_window_hours := hb
    total_failures := evs.length
    by_type := byType
    by_agent := byAgent
    by_gateway := byGateway
    peak_hours := peakHours
    hourly_distribution := hourly
    repeated_failures := repeated
    most_failing_gateway :=
      match byGateway with
      | [] => none
      | g :: _ => some { name := g.key, percentage := g.percentage,
                         count := g.count }
    most_failing_agent :=
      match byAgent with
      | [] => none
      | g :: _ => some { name := g.key, percentage := g.percentage,
                         count := g.count }
    peak_failure_window :=
      match peakHours with
      | [] => none
      | _ :: _ =>
          some { hours :=
                   if peakHours.length = 1 then
                     formatHour (natListMin (peakHours.map (fun x => x.hour)))
                   else
                     formatHour (natListMin
                         (peakHours.map (fun x => x.hour))) ++ "-" ++
                       formatHour (natListMax
                         (peakHours.map (fun x => x.hour)) + 1)
                 percentage := (peakHours.map (fun x => x.percentage)).sum }
    top_pattern :=
      match repeated with
      | [] => none
      | p :: _ =>
          some { description :=
                   p.agent ++ " agent with " ++
                     (match p.gateway with
                      | none => "unknown"
                      | some s => if s = "" then "unknown" else s) ++
                     " gateway"
                 count := p.count }
    ai_summary := none }

/-- `buildStatsText` from `rcaEngine.ts`: the deterministic plain-text
statistics block handed to the Summarizer. -/
def buildStatsText (r : RCAReport) : String :=
  String.intercalate "\n"
    (["Time window: Last " ++ toString r.time_window_hours ++ " hours",
      "Total failures: " ++ toString r.total_failures]
     ++ (if 0 < r.by_type.length then
          "\nFailures by type:" ::
            r.by_type.map (fun i =>
              "  - " ++ i.key ++ ": " ++ toString i.count ++ " (" ++
                toString i.percentage ++ "%)")
         else [])
     ++ (if 0 < r.by_agent.length then
          "\nFailures by agent:" ::
            r.by_agent.map (fun i =>
              "  - " ++ i.key ++ ": " ++ toString i.count ++ " (" ++
                toString i.percentage ++ "%)")
         else [])
     ++ (if 0 < r.by_gateway.length then
          "\nFailures by gateway/carrier:" ::
            r.by_gateway.map (fun i =>
              "  - " ++ i.key ++ ": " ++ toString i.count ++ " (" ++
                toString i.percentage ++ "%)")
         else [])
     ++ (if 0 < r.peak_hours.length then
          "\nPeak failure hours:" ::
            r.peak_hours.map (fun i =>
              "  - " ++ formatHour i.hour ++ ": " ++ toString i.count ++
                " failures (" ++ toString i.percentage ++ "%)")
         else [])
     ++ (if 0 < r.repeated_failures.length then
          "\nRepeated failure patterns:" ::
            (r.repeated_failures.take 3).map (fun p =>
              "  - " ++ p.agent ++ " + " ++
                (match p.gateway with
                 | none => "unknown"
                 | some s => if s = "" then "unknown" else s) ++ ": " ++
                toString p.count ++ " times")
         else []))

/-- `parts.join(' ')`. -/
def joinSpace : List String → String
  | [] => ""
  | [x] => x
  | x :: xs => x ++ " " ++ joinSpace xs

/-- `generateFallbackSummary` from `rcaEngine.ts`: the deterministic
templated sentence built from the report's totals and insights. -/
def generateFallbackSummary (r : RCAReport) : String :=
  joinSpace
    ((toString r.total_failures ++ " failures recorded in the last " ++
        toString r.time_window_hours ++ " hours.") ::
      ((match r.most_failing_gateway with
        | none => []
        | some t => [toString t.percentage ++
            "% of failures occurred with " ++ t.name ++ "."])
       ++ (match r.peak_failure_window with
           | none => []
           | some p => ["Peak failures occurred between " ++ p.hours ++ "."])))

/-- The observable failure modes of the Summarizer collaborator: a thrown
error / timeout (`error`), a response with no text (`ok none`), or a
whitespace-only/empty text. -/
def summarizerFailed (res : Except String (Option String)) : Prop :=
  match res with
  | .error _ => True
  | .ok none => True
  | .ok (some t) => t.trim = ""

/-- The summary text produced by the `generateAISummary` call site in
`analyzeFailures`: a thrown error is caught and replaced by
`generateFallbackSummary` (the `catch` branch); a missing or empty
`response.text` falls back inside `generateAISummary`
(`response.text?.trim() || generateFallbackSummary(report)`). -/
def aiSummaryText (report : RCAReport)
    (res : Except String (Option String)) : String :=
  match res with
  | .error _ => generateFallbackSummary report
  | .ok none => generateFallbackSummary report
  | .ok (some t) =>
      if t.trim = "" then generateFallbackSummary report else t.trim

/-- `const includeAI = options?.includeAISummary !== false` (default true). -/
def effectiveIncludeAI (includeAISummary : Option Bool) : Bool :=
  match includeAISummary with
  | some false => false
  | _ => true

/-- `analyzeFailures` from `rcaEngine.ts`.  The Gemini call of
`generateAISummary` is the oracle `summarizer`. -/
def analyzeFailures (store : List FailureEvent) (now : Int)
    (hoursBack : Option JSNum) (includeAISummary : Option Bool)
    (summarizer : String → Except String (Option String)) : RCAReport :=
  let report := rcaBaseReport store now hoursBack
  if effectiveIncludeAI includeAISummary = true ∧ 0 < report.total_failures then
    { report with ai_summary := some (aiSummaryText report (summarizer (buildStatsText report))) }
  else if report.total_failures = 0 then
    { report with ai_summary := some "No failures recorded in the specified time window." }
  else report

lemma joinSpace_length_head (p : String) (rest : List String) :
    p.length ≤ (joinSpace (p :: rest)).length := by
  cases rest with
  | nil => simp [joinSpace]
  | cons x xs =>
      show p.length ≤ (p ++ " " ++ joinSpace (x :: xs)).length
      rw [String.length_append, String.length_append]
      omega

lemma joinSpace_cons_ne_empty {p : String} (hp : 0 < p.length)
    (rest : List String) : joinSpace (p :: rest) ≠ "" := by
  intro hc
  have h1 := joinSpace_length_head p rest
  rw [hc] at h1
  have h2 : ("" : String).length = 0 := rfl
  rw [h2] at h1
  omega

lemma generateFallbackSummary_ne_empty (r : RCAReport) :
    generateFallbackSummary r ≠ "" := by
  unfold generateFallbackSummary
  apply joinSpace_cons_ne_empty
  rw [String.length_append, String.length_append, String.length_append]
  have h1 : 0 < (" failures recorded in the last " : String).length := by
    decide
  omega

lemma analyzeFailures_total (store : List FailureEvent) (now : Int)
    (hb : Option JSNum) (inc : Option Bool)
    (summ : String → Except String (Option String)) :
    (analyzeFailures store now hb inc summ).total_failures
      = (rcaBaseReport store now hb).total_failures := by
  simp only [analyzeFailures]
  split
  · rfl
  · split
    · rfl
    · rfl

/-- C7: whenever the window holds at least one event and the Summarizer is
requested (not explicitly disabled) but fails on every call — throws, or
returns a missing or blank text — `analyzeFailures` still returns the
complete report: its `ai_summary` is exactly the deterministic templated
fallback built from the computed insights, that fallback string is
non-empty, and the statistics of the report do not depend on the summarizer
at all (no exception propagates: the function is total). -/
theorem analyzeFailures_fallback_summary (store : List FailureEvent)
    (now : Int) (hb : Option JSNum) (inc : Option Bool)
    (summ : String → Except String (Option String))
    (hfail : ∀ s, summarizerFailed (summ s))
    (hinc : inc ≠ some false)
    (hpos : 0 < (analyzeFailures store now hb inc summ).total_failures) :
    (analyzeFailures store now hb inc summ).ai_summary
      = some (generateFallbackSummary (analyzeFailures store now hb inc summ)) ∧
    generateFallbackSummary (analyzeFailures store now hb inc summ) ≠ "" ∧
    (∀ summ2 : String → Except String (Option String),
      { analyzeFailures store now hb inc summ2 with ai_summary := none }
        = { analyzeFailures store now hb inc summ with ai_summary := none }) := by
  have hAI : effectiveIncludeAI inc = true := by
    cases inc with
    | none => rfl
    | some b =>
        cases b with
        | false => exact absurd rfl hinc
        | true => rfl
  have hbase : 0 < (rcaBaseReport store now hb).total_failures := by
    rw [← analyzeFailures_total store now hb inc summ]
    exact hpos
  have hcond : (effectiveIncludeAI inc = true ∧
      0 < (rcaBaseReport store now hb).total_failures) := ⟨hAI, hbase⟩
  have hres : analyzeFailures store now hb inc summ
      = { rcaBaseReport store now hb with
          ai_summary := some (aiSummaryText (rcaBaseReport store now hb) (summ (buildStatsText (rcaBaseReport store now hb)))) } := by
    simp only [analyzeFailures]
    rw [if_pos hcond]
  have hsummary : aiSummaryText (rcaBaseReport store now hb)
      (summ (buildStatsText (rcaBaseReport store now hb)))
      = generateFallbackSummary (rcaBaseReport store now hb) := by
    have hf := hfail (buildStatsText (rcaBaseReport store now hb))
    cases hres2 : summ (buildStatsText (rcaBaseReport store now hb)) with
    | error e => rfl
    | ok o =>
        cases o with
        | none => rfl
        | some t =>
            rw [hres2] at hf
            have ht : t.trim = "" := hf
            simp [aiSummaryText, ht]
  refine ⟨?_, ?_, ?_⟩
  · rw [hres, hsummary]
    rfl
  · exact generateFallbackSummary_ne_empty _
  · intro summ2
    simp only [analyzeFailures]
    rw [if_pos hcond, if_pos hcond]

/-- A summarizer oracle that throws on every call. -/
def failingSummarizer : String → Except String (Option String) :=
  fun _ => Except.error "unavailable"

/-- One payment failure used to populate the window in witnesses. -/
def oneFailureStore : List FailureEvent :=
  [mkEvent .payment "hulk" (some "stripe") 0 (some "Card declined")]

/-- C7 witness: with one event in the window and an always-throwing
summarizer, the report's `ai_summary` is the templated fallback. -/
theorem analyzeFailures_fallback_summary_witness :
    0 < (analyzeFailures oneFailureStore 0 none none failingSummarizer).total_failures ∧
    (analyzeFailures oneFailureStore 0 none none failingSummarizer).ai_summary
      = some (generateFallbackSummary (analyzeFailures oneFailureStore 0 none none failingSummarizer)) := by
  have h := analyzeFailures_fallback_summary oneFailureStore 0 none none
    failingSummarizer (fun _ => True.intro) (by decide) (by decide)
  exact ⟨by decide, h.1⟩

/-- C8: whenever zero events fall in the requested window,
`analyzeFailures` returns a valid report whose `ai_summary` is exactly
`"No failures recorded in the specified time window."`, whose `by_type`
aggregation is empty, and which does not depend on the summarizer at all
(the Summarizer is never invoked). -/
theorem analyzeFailures_empty_window (store : List FailureEvent) (now : Int)
    (hb : Option JSNum) (inc : Option Bool)
    (summ : String → Except String (Option String))
    (h : (analyzeFailures store now hb inc summ).total_failures = 0) :
    (analyzeFailures store now hb inc summ).ai_summary
      = some "No failures recorded in the specified time window." ∧
    (analyzeFailures store now hb inc summ).by_type = [] ∧
    (∀ summ2 : String → Except String (Option String),
      analyzeFailures store now hb inc summ2
        = analyzeFailures store now hb inc summ) := by
  have hB0 : (rcaBaseReport store now hb).total_failures = 0 := by
    rw [← analyzeFailures_total store now hb inc summ]
    exact h
  have hc1 : ¬ (effectiveIncludeAI inc = true ∧
      0 < (rcaBaseReport store now hb).total_failures) := by
    rintro ⟨_, hlt⟩
    rw [hB0] at hlt
    exact absurd hlt (lt_irrefl 0)
  have hres : analyzeFailures store now hb inc summ
      = { rcaBaseReport store now hb with
          ai_summary := some "No failures recorded in the specified time window." } := by
    simp only [analyzeFailures]
    rw [if_neg hc1, if_pos hB0]
  refine ⟨by rw [hres], ?_, ?_⟩
  · have h0 : (getFailureEvents store
        (sinceOnly (now - effectiveHoursBack hb * 3600000))).length = 0 := hB0
    have hevs := List.length_eq_zero.mp h0
    rw [hres]
    show aggregateBy Dimension.failure_type (getFailureEvents store
      (sinceOnly (now - effectiveHoursBack hb * 3600000))) = []
    rw [hevs]
    rfl
  · intro summ2
    simp only [analyzeFailures]
    rw [if_neg hc1, if_neg hc1]

/-- A summarizer oracle that would return text if it were ever called. -/
def okSummarizer : String → Except String (Option String) :=
  fun _ => Except.ok (some "ai text")

/-- C8 witness: on an empty store the report carries the fixed
no-failures message. -/
theorem analyzeFailures_empty_window_witness :
    (analyzeFailures [] 0 none none okSummarizer).total_failures = 0 ∧
    (analyzeFailures [] 0 none none okSummarizer).ai_summary
      = some "No failures recorded in the specified time window." := by
  have h := analyzeFailures_empty_window [] 0 none none okSummarizer
    (by decide)
  exact ⟨by decide, h.1⟩

/-!  The on-demand report API handler (`GetRCAReport`). -/

/-- Value of a hexadecimal digit, if any. -/
def hexDigitVal (c : Char) : Option Nat :=
  if '0' ≤ c ∧ c ≤ '9' then some (c.toNat - '0'.toNat)
  else if 'a' ≤ c ∧ c ≤ 'f' then some (c.toNat - 'a'.toNat + 10)
  else if 'A' ≤ c ∧ c ≤ 'F' then some (c.toNat - 'A'.toNat + 10)
  else none

/-- Parse the maximal leading run of digits in the given base; `none` when
there is no digit at all (JS `parseInt` → `NaN`). -/
def parseDigitRun (base : Nat) (isDigitB : Char → Bool)
    (val : Char → Nat) (cs : List Char) : Option Nat :=
  match cs.takeWhile isDigitB with
  | [] => none
  | ds => some (ds.foldl (fun acc c => acc * base + val c) 0)

/-- The digit-parsing core of `parseInt`: an optional `0x`/`0X` selects
base 16, otherwise base 10; trailing non-digit characters are ignored. -/
def jsParseIntCore (cs : List Char) : Option Nat :=
  match cs with
  | '0' :: 'x' :: rest =>
      parseDigitRun 16 (fun c => (hexDigitVal c).isSome)
        (fun c => (hexDigitVal c).getD 0) rest
  | '0' :: 'X' :: rest =>
      parseDigitRun 16 (fun c => (hexDigitVal c).isSome)
        (fun c => (hexDigitVal c).getD 0) rest
  | rest => parseDigitRun 10 Char.isDigit (fun c => c.toNat - '0'.toNat) rest

/-- JavaScript `parseInt(s)` (no radix argument): skip leading whitespace,
optional sign, auto-detect hex prefix, parse leading digits (trailing
non-digits are ignored); `none` models `NaN`. -/
def jsParseInt (s : String) : Option Int :=
  match s.toList.dropWhile (fun c => c.isWhitespace) with
  | '-' :: rest => (jsParseIntCore rest).map (fun n => -(n : Int))
  | '+' :: rest => (jsParseIntCore rest).map (fun n => (n : Int))
  | rest => (jsParseIntCore rest).map (fun n => (n : Int))

/-- The horizontal rule line of the report banner. -/
def reportRule : String := String.mk (List.replicate 59 '═')

/-- The `formatReportForLogging` text rendering of `rcaEngine.ts`.  Dates
(ISO strings in the source) are rendered from the epoch-millisecond model. -/
def formatReportForLogging (r : RCAReport) : String :=
  String.intercalate "\n"
    ([reportRule,
      "                    RCA ANALYSIS REPORT                     ",
      reportRule,
      "",
      "Generated: " ++ toString r.generated_at,
      "Window: " ++ toString r.time_window_hours ++ " hours (" ++
        toString r.time_window_from ++ " → " ++ toString r.time_window_to ++ ")",
      "",
      "📊 SUMMARY",
      "   Total Failures: " ++ toString r.total_failures,
      ""]
     ++ (if 0 < r.by_type.length then
          ("   By Type:" ::
            r.by_type.map (fun i =>
              "     • " ++ i.key ++ ": " ++ toString i.count ++ " (" ++
                toString i.percentage ++ "%)")) ++ [""]
         else [])
     ++ (if 0 < r.by_agent.length then
          ("   By Agent:" ::
            r.by_agent.map (fun i =>
              "     • " ++ i.key ++ ": " ++ toString i.count ++ " (" ++
                toString i.percentage ++ "%)")) ++ [""]
         else [])
     ++ (if 0 < r.by_gateway.length then
          ("   By Gateway:" ::
            r.by_gateway.map (fun i =>
              "     • " ++ i.key ++ ": " ++ toString i.count ++ " (" ++
                toString i.percentage ++ "%)")) ++ [""]
         else [])
     ++ (if 0 < r.peak_hours.length then
          ("⏰ PEAK FAILURE HOURS" ::
            r.peak_hours.map (fun i =>
              "     • " ++ formatHour i.hour ++ ": " ++ toString i.count ++
                " failures (" ++ toString i.percentage ++ "%)")) ++ [""]
         else [])
     ++ (if 0 < r.repeated_failures.length then
          ("🔄 REPEATED PATTERNS" ::
            (r.repeated_failures.take 5).map (fun p =>
              "     • " ++ p.agent ++ " + " ++
                (match p.gateway with
                 | none => "none"
                 | some s => if s = "" then "none" else s) ++ ": " ++
                toString p.count ++ "x")) ++ [""]
         else [])
     ++ (match r.ai_summary with
         | none => []
         | some s =>
             if s = "" then []
             else ["🤖 AI SUMMARY", "   \"" ++ s ++ "\"", ""])
     ++ [reportRule])

/-- Body of the handler's HTTP response: `text/plain` rendering or the JSON
report object. -/
inductive ResponseBody where
  | text (s : String)
  | json (report : RCAReport)
deriving DecidableEq, Repr

/-- The handler's HTTP response shape. -/
structure ApiResponse where
  status : Nat
  body : ResponseBody
deriving DecidableEq, Repr

/-- The `GetRCAReport` API handler.  Query parameters arrive as optional
strings.  `const hours = hoursParam ? parseInt(hoursParam) : 24` — an absent
or empty (falsy) parameter defaults to 24, otherwise `parseInt` may produce
`NaN` (`none`), which `analyzeFailures` later defaults to 24 via `|| 24`.
The source wraps report generation in `try`/`catch` with a 500 response; in
this embedding report generation is total, so that branch is unreachable
and the handler always answers 200. -/
def getRCAReportHandler (store : List FailureEvent) (now : Int)
    (hoursParam formatParam : Option String)
    (summarizer : String → Except String (Option String)) : ApiResponse :=
  let hoursNum : JSNum :=
    match hoursParam with
    | none => some 24
    | some s => if s = "" then some 24 else jsParseInt s
  let fmt : String :=
    match formatParam with
    | none => "json"
    | some f => if f = "" then "json" else f
  let report := analyzeFailures store now (some hoursNum) (some true) summarizer
  if fmt = "text" then
    { status := 200, body := ResponseBody.text (formatReportForLogging report) }
  else
    { status := 200, body := ResponseBody.json report }

/-- The look-back hours actually used in a JSON response's report. -/
def responseReportHours (resp : ApiResponse) : Option Int :=
  match resp.body with
  | ResponseBody.json r => some r.time_window_hours
  | _ => none

/-- C9 (amended): the handler returns status 200 for **every** request —
well-formed ones as the claim states, but also requests whose look-back
hours parameter is non-numeric: `parseInt` yields `NaN`, which is falsy and
silently replaced by the default 24 inside `analyzeFailures`; there is no
client-error (4xx) path for malformed query parameters. -/
theorem getRCAReportHandler_status (store : List FailureEvent) (now : Int)
    (hoursParam formatParam : Option String)
    (summ : String → Except String (Option String)) :
    (getRCAReportHandler store now hoursParam formatParam summ).status
      = 200 := by
  simp only [getRCAReportHandler]
  split
  · rfl
  · rfl

/-- C9 counterexample: the request `?hours=abc` (non-numeric) receives a
200 response — not a client-error (4xx) response as claimed — and the
report silently uses the default 24-hour window. -/
theorem getRCAReportHandler_malformed_counterexample :
    (getRCAReportHandler [] 0 (some "abc") none failingSummarizer).status
        = 200 ∧
    ¬ (400 ≤ (getRCAReportHandler [] 0 (some "abc") none
          failingSummarizer).status ∧
        (getRCAReportHandler [] 0 (some "abc") none
          failingSummarizer).status < 500) ∧
    responseReportHours
        (getRCAReportHandler [] 0 (some "abc") none failingSummarizer)
      = some 24 := by
  refine ⟨by decide, by decide, by decide⟩

/-- The expected top group of Scenario B. -/
def scenarioBTopGroup : AggregatedFailure :=
  { key := "stripe", count := 12, percentage := 80,
    first_occurrence := 0, last_occurrence := 0 }

/-- C5 witness: the stripe group of Scenario B is returned and its
percentage is computed over the 15 gateway-bearing events. -/
theorem getGatewayFailureRanking_spec_witness :
    scenarioBTopGroup ∈ getGatewayFailureRanking scenarioBEvents ∧
    scenarioBTopGroup.percentage = jsRoundPct scenarioBTopGroup.count
      (scenarioBEvents.filter (fun e => truthyGateway e.gateway)).length := by
  refine ⟨by decide, ?_⟩
  exact ((getGatewayFailureRanking_spec scenarioBEvents).2.1
    scenarioBTopGroup (by decide)).1

end Talkops
